import Mathlib

/-!
Formal model of the recommendation core of `yoga_recommender.py`
(class `YogaAsanaRecommender`) from the smart-yoga-asana repository.

The embedding covers: the catalog load in `__init__` (reverse index
`asana_map` and vocabulary `health_benefits`), the lazy model/index
initialization (`load_model`, `build_faiss_index`), the benefit matcher
(`find_all_matching_benefits`, FAISS `IndexFlatL2.search` modelled as an
exact sort of squared-L2 distances), and the demographic filter
(`recommend_asanas`).  Python runtime errors relevant to the filter
(`ValueError` from `int(...)`, `KeyError` from `asana["gender"]`) are
modelled with `Except`.  Embedding floats are modelled by rationals; the
rational operations are written through `mkRat` so that they evaluate by
kernel reduction.
-/

namespace SmartYoga

/-- Lowercase an ASCII letter; models Python `str.lower` on one character
(the catalog's gender strings are plain ASCII). -/
def charLower (c : Char) : Char :=
  if 'A' ≤ c ∧ c ≤ 'Z' then Char.ofNat (c.toNat + 32) else c

/-- Models Python `str.lower()` for the ASCII strings of the catalog. -/
def pyLower (s : String) : String :=
  ⟨s.data.map charLower⟩

/-- Value of a decimal digit character. -/
def digitVal (c : Char) : Nat := c.toNat - 48

/-- Decimal value of a digit string. -/
def natVal (cs : List Char) : Nat :=
  cs.foldl (fun n c => n * 10 + digitVal c) 0

/-- Models Python `int(s)` on a string: an optional sign followed by at
least one decimal digit parses, anything else raises `ValueError`
(here: `none`). -/
def pyInt? (s : String) : Option Int :=
  match s.data with
  | [] => none
  | '-' :: cs =>
      if cs ≠ [] ∧ cs.all Char.isDigit then some (-(natVal cs : Int)) else none
  | cs =>
      if cs.all Char.isDigit then some (natVal cs : Int) else none

/-- One catalog record, with the fields projected by `__init__`
(`asana`, `age`, `gender`, `health_benefits`; steps/contraindications and
image are irrelevant to the claims).  `oid` is the Mongo `_id` used as the
deduplication key; `age` and `gender` are optional fields whose absence
models a missing Mongo field, the age value being the string Python's
`int(...)` is applied to. -/
structure Asana where
  oid : Nat
  asana : String
  age : Option String
  gender : Option String
  health_benefits : List String
  deriving DecidableEq

/-- The Python exceptions the filter can raise. -/
inductive PyErr where
  | valueError
  | keyError
  deriving DecidableEq

instance {ε α : Type} [DecidableEq ε] [DecidableEq α] : DecidableEq (Except ε α) := fun x y =>
  match x, y with
  | Except.ok a, Except.ok b =>
      if h : a = b then Decidable.isTrue (congrArg Except.ok h)
      else Decidable.isFalse (fun hh => h (Except.ok.inj hh))
  | Except.ok _, Except.error _ => Decidable.isFalse (fun hh => Except.noConfusion hh)
  | Except.error _, Except.ok _ => Decidable.isFalse (fun hh => Except.noConfusion hh)
  | Except.error e, Except.error f =>
      if h : e = f then Decidable.isTrue (congrArg Except.error h)
      else Decidable.isFalse (fun hh => h (Except.error.inj hh))

/-- The benefit vocabulary built in `__init__`: every benefit label of
every pose, collected into a `set` and turned back into a list (so:
deduplicated, in an implementation-defined order). -/
def health_benefits (asanas : List Asana) : List String :=
  (asanas.flatMap (fun a => a.health_benefits)).dedup

/-- The reverse index built in `__init__`: for each pose in catalog order,
for each occurrence of the label in its benefit list, the pose is appended
to that label's entry (`setdefault(benefit, []).append(asana)`); a label
that never occurs maps to `[]` (`asana_map.get(benefit, [])`). -/
def asana_map (asanas : List Asana) (benefit : String) : List Asana :=
  asanas.flatMap (fun a => (a.health_benefits.filter (fun b => b = benefit)).map (fun _ => a))

/-- Rational addition computed through `mkRat`. -/
def qadd (a b : ℚ) : ℚ := mkRat (a.num * (b.den : Int) + b.num * (a.den : Int)) (a.den * b.den)

/-- Rational subtraction computed through `mkRat`. -/
def qsub (a b : ℚ) : ℚ := mkRat (a.num * (b.den : Int) - b.num * (a.den : Int)) (a.den * b.den)

/-- Rational multiplication computed through `mkRat`. -/
def qmul (a b : ℚ) : ℚ := mkRat (a.num * b.num) (a.den * b.den)

/-- Squared Euclidean (L2) distance between two embedding vectors, the
metric of `faiss.IndexFlatL2`. -/
def sqL2 (u v : List ℚ) : ℚ :=
  ((u.zip v).map (fun p => qmul (qsub p.1 p.2) (qsub p.1 p.2))).foldl qadd 0

/-- `faiss.IndexFlatL2.search` over the stored vectors `db` with query `q`
and parameter `k`: every stored vector paired with its squared-L2 distance
to the query, sorted ascending by distance, truncated to `k` results.
Results carry the position of the vector in the stored order, as FAISS
returns row indices. -/
def searchAll (db : List (List ℚ)) (q : List ℚ) (k : Nat) : List (ℚ × Nat) :=
  (((db.enum).map (fun p => (sqL2 q p.2, p.1))).insertionSort (fun a b => a.1 ≤ b.1)).take k

/-- `find_all_matching_benefits`: embeds the user input, queries the index
for `len(self.health_benefits)` neighbours, and keeps the labels of those
whose distance is strictly below the threshold.  `enc` is the loaded
sentence-transformer's `encode`.  Index `idx` is dereferenced as
`self.health_benefits[idx]`. -/
def find_all_matching_benefits (enc : String → List ℚ) (asanas : List Asana)
    (user_input : String) (similarity_threshold : ℚ) : List String :=
  let vocab := health_benefits asanas
  let res := searchAll (vocab.map enc) (enc user_input) vocab.length
  (res.filter (fun p => decide (p.1 < similarity_threshold))).map (fun p => vocab.getD p.2 "")

/-- The parsed age threshold of a pose: `int(asana.get("age", 0))` with
`ValueError` defaulted to `0`. -/
def poseAgeInt (a : Asana) : Int :=
  match a.age with
  | none => 0
  | some s => (pyInt? s).getD 0

/-- `int(age)` on the user-supplied age, raising `ValueError` when it does
not parse (this call is NOT inside the `try` of `recommend_asanas`). -/
def userAgeInt (age : String) : Except PyErr Int :=
  match pyInt? age with
  | some n => Except.ok n
  | none => Except.error PyErr.valueError

/-- The gender disjunction of `recommend_asanas`:
`asana.get("gender", "all").lower() == gender or asana["gender"].lower() == "all"`,
with Python's left-to-right short-circuit; the second disjunct raises
`KeyError` when the field is missing. -/
def genderTest (a : Asana) (gender : String) : Except PyErr Bool :=
  if pyLower (a.gender.getD "all") = gender then Except.ok true
  else
    match a.gender with
    | none => Except.error PyErr.keyError
    | some g => Except.ok (decide (pyLower g = "all"))

/-- The full per-pose condition `asana_age <= int(age) and (...)`: the user
age is parsed first (possibly raising), then the age comparison, and the
gender test only if the age comparison holds. -/
def passesFilter (a : Asana) (age gender : String) : Except PyErr Bool :=
  match userAgeInt age with
  | Except.error e => Except.error e
  | Except.ok ua => if poseAgeInt a ≤ ua then genderTest a gender else Except.ok false

/-- Loop state of `recommend_asanas`: the `seen_asanas` id set and the
`recommended_asanas` accumulator. -/
abbrev FilterState := List Nat × List Asana

/-- One iteration of the inner loop of `recommend_asanas` on pose `a`:
apply the filter condition and, if it holds and the id is unseen, record
the id and append the pose.  A previously raised exception propagates. -/
def stepA (age gender : String) (st : Except PyErr FilterState) (a : Asana) :
    Except PyErr FilterState :=
  match st with
  | Except.error e => Except.error e
  | Except.ok (seen, acc) =>
    match passesFilter a age gender with
    | Except.error e => Except.error e
    | Except.ok true =>
        if a.oid ∈ seen then Except.ok (seen, acc)
        else Except.ok (a.oid :: seen, acc ++ [a])
    | Except.ok false => Except.ok (seen, acc)

/-- The nested loops of `recommend_asanas` over the matched benefits and
each benefit's reverse-index entry, from empty `seen`/`recommended`. -/
def filterBenefits (asanas : List Asana) (matching : List String) (age gender : String) :
    Except PyErr (List Asana) :=
  (matching.foldl (fun st b => (asana_map asanas b).foldl (stepA age gender) st)
    (Except.ok ([], []))).map Prod.snd

/-- `recommend_asanas`: match benefits with the default threshold `0.6`,
then filter demographically. -/
def recommend_asanas (enc : String → List ℚ) (asanas : List Asana)
    (user_input age gender : String) : Except PyErr (List Asana) :=
  filterBenefits asanas (find_all_matching_benefits enc asanas user_input (mkRat 6 10)) age gender

/-- The lazy-initialization state of the recommender: `self.model` and
`self.index` (`None` until first use). -/
structure RecommenderState where
  model : Option (String → List ℚ)
  index : Option (List (List ℚ))

/-- The state `__init__` leaves behind: no model, no index. -/
def initRecommender : RecommenderState :=
  { model := none, index := none }

/-- `load_model`: loads the sentence-transformer only when `self.model is
None`; `loader` stands for the Hugging Face fetch. -/
def load_model (loader : Unit → (String → List ℚ)) (st : RecommenderState) : RecommenderState :=
  match st.model with
  | some _ => st
  | none => { st with model := some (loader ()) }

/-- `build_faiss_index` over the fixed vocabulary `vocab`: when `self.index
is None`, load the model, embed the vocabulary and store the index. -/
def build_faiss_index (loader : Unit → (String → List ℚ)) (vocab : List String)
    (st : RecommenderState) : RecommenderState :=
  match st.index with
  | some _ => st
  | none =>
    let st1 := load_model loader st
    match st1.model with
    | some m => { st1 with index := some (vocab.map m) }
    | none => st1

-- Concrete instances used by witnesses and counterexamples.

/-- An encoder mapping every string to the same vector: all distances 0,
every benefit matches. -/
def cencAll : String → List ℚ := fun _ => [0]

/-- An encoder placing the query "q" at distance 1 from everything else:
no benefit passes the 0.6 threshold. -/
def cencFar : String → List ℚ := fun s => if s = "q" then [1] else [0]

/-- Pose with gender "Female" (capital F) and benefit "b". -/
def poseF : Asana :=
  { oid := 1, asana := "PoseF", age := none, gender := some "Female", health_benefits := ["b"] }

/-- Pose with gender "all" and benefit "b". -/
def poseAll : Asana :=
  { oid := 2, asana := "PoseAll", age := none, gender := some "all", health_benefits := ["b"] }

/-- Pose with no gender field. -/
def poseNoG : Asana :=
  { oid := 3, asana := "PoseNoG", age := none, gender := none, health_benefits := ["b"] }

/-- Pose with the non-numeric age threshold "All". -/
def poseAgeAll : Asana :=
  { oid := 4, asana := "PoseAgeAll", age := some "All", gender := some "all",
    health_benefits := ["b"] }

/-- Second pose sharing benefit "b", for the tie-order scenario. -/
def poseAll2 : Asana :=
  { oid := 5, asana := "PoseAll2", age := none, gender := some "all", health_benefits := ["b"] }

-- Basic lemmas about the filter loop.

lemma stepA_error (age gender : String) (e : PyErr) (a : Asana) :
    stepA age gender (Except.error e) a = Except.error e := rfl

lemma stepA_ok_err (age gender : String) (seen : List Nat) (acc : List Asana) (a : Asana)
    (e : PyErr) (h : passesFilter a age gender = Except.error e) :
    stepA age gender (Except.ok (seen, acc)) a = Except.error e := by
  simp [stepA, h]

lemma stepA_ok_false (age gender : String) (seen : List Nat) (acc : List Asana) (a : Asana)
    (h : passesFilter a age gender = Except.ok false) :
    stepA age gender (Except.ok (seen, acc)) a = Except.ok (seen, acc) := by
  simp [stepA, h]

lemma stepA_ok_seen (age gender : String) (seen : List Nat) (acc : List Asana) (a : Asana)
    (h : passesFilter a age gender = Except.ok true) (hs : a.oid ∈ seen) :
    stepA age gender (Except.ok (seen, acc)) a = Except.ok (seen, acc) := by
  simp [stepA, h, hs]

lemma stepA_ok_new (age gender : String) (seen : List Nat) (acc : List Asana) (a : Asana)
    (h : passesFilter a age gender = Except.ok true) (hs : a.oid ∉ seen) :
    stepA age gender (Except.ok (seen, acc)) a = Except.ok (a.oid :: seen, acc ++ [a]) := by
  simp [stepA, h, hs]

lemma foldl_stepA_error (age gender : String) (e : PyErr) :
    ∀ cs : List Asana, cs.foldl (stepA age gender) (Except.error e) = Except.error e := by
  intro cs
  induction cs with
  | nil => rfl
  | cons a cs ih => rw [List.foldl_cons, stepA_error]; exact ih

lemma foldl_nested_eq_flat {β γ δ : Type} (g : β → List γ) (f : δ → γ → δ) :
    ∀ (l : List β) (st : δ),
      l.foldl (fun st b => (g b).foldl f st) st = (l.flatMap g).foldl f st := by
  intro l
  induction l with
  | nil => intro st; rfl
  | cons b l ih =>
    intro st
    rw [List.foldl_cons, List.flatMap_cons, List.foldl_append, ih]

lemma mem_asana_map (asanas : List Asana) (b : String) (p : Asana) :
    p ∈ asana_map asanas b ↔ p ∈ asanas ∧ b ∈ p.health_benefits := by
  unfold asana_map
  rw [List.mem_flatMap]
  constructor
  · rintro ⟨a, ha, hp⟩
    rw [List.mem_map] at hp
    obtain ⟨c, hc, rfl⟩ := hp
    rw [List.mem_filter, decide_eq_true_eq] at hc
    exact ⟨ha, hc.2 ▸ hc.1⟩
  · rintro ⟨hp, hb⟩
    refine ⟨p, hp, ?_⟩
    rw [List.mem_map]
    exact ⟨b, by rw [List.mem_filter, decide_eq_true_eq]; exact ⟨hb, rfl⟩, rfl⟩

/-- Invariant of the `recommend_asanas` loop state: the `seen` set holds
exactly the ids of the accumulated poses, the accumulated ids are distinct,
and every accumulated pose is a catalog pose. -/
def InvS (asanas : List Asana) (st : FilterState) : Prop :=
  (∀ x, x ∈ st.1 ↔ x ∈ st.2.map Asana.oid) ∧ (st.2.map Asana.oid).Nodup ∧
    ∀ a ∈ st.2, a ∈ asanas

lemma invS_nil (asanas : List Asana) : InvS asanas ([], []) := by
  refine ⟨by simp, by simp, by simp⟩

lemma run_inv (age gender : String) (asanas : List Asana) :
    ∀ cs : List Asana, (∀ a ∈ cs, a ∈ asanas) →
    ∀ (seen : List Nat) (acc : List Asana), InvS asanas (seen, acc) →
    ∀ (seen' : List Nat) (acc' : List Asana),
      cs.foldl (stepA age gender) (Except.ok (seen, acc)) = Except.ok (seen', acc') →
      InvS asanas (seen', acc') ∧ ∃ t, acc' = acc ++ t ∧ t.Sublist cs := by
  intro cs
  induction cs with
  | nil =>
    intro _ seen acc hinv seen' acc' h
    rw [List.foldl_nil] at h
    simp only [Except.ok.injEq, Prod.mk.injEq] at h
    obtain ⟨rfl, rfl⟩ := h
    exact ⟨hinv, [], by simp, List.nil_sublist _⟩
  | cons a cs ih =>
    intro hsub seen acc hinv seen' acc' h
    rw [List.foldl_cons] at h
    have hsub' : ∀ x ∈ cs, x ∈ asanas := fun x hx => hsub x (List.mem_cons_of_mem a hx)
    have ha : a ∈ asanas := hsub a (List.mem_cons_self a cs)
    cases hpf : passesFilter a age gender with
    | error e =>
      rw [stepA_ok_err age gender seen acc a e hpf, foldl_stepA_error] at h
      exact absurd h (by intro hh; exact Except.noConfusion hh)
    | ok pass =>
      cases pass with
      | false =>
        rw [stepA_ok_false age gender seen acc a hpf] at h
        obtain ⟨hinv', t, ht, hts⟩ := ih hsub' seen acc hinv seen' acc' h
        exact ⟨hinv', t, ht, hts.cons a⟩
      | true =>
        by_cases hseen : a.oid ∈ seen
        · rw [stepA_ok_seen age gender seen acc a hpf hseen] at h
          obtain ⟨hinv', t, ht, hts⟩ := ih hsub' seen acc hinv seen' acc' h
          exact ⟨hinv', t, ht, hts.cons a⟩
        · rw [stepA_ok_new age gender seen acc a hpf hseen] at h
          have hnotin : a.oid ∉ acc.map Asana.oid := fun hmem => hseen ((hinv.1 a.oid).mpr hmem)
          have hinv2 : InvS asanas (a.oid :: seen, acc ++ [a]) := by
            refine ⟨?_, ?_, ?_⟩
            · intro x
              rw [List.mem_cons, List.map_append, List.mem_append]
              rw [hinv.1 x]
              simp [or_comm]
            · rw [List.map_append]
              rw [List.nodup_append]
              exact ⟨hinv.2.1, List.nodup_singleton _, by simpa using hnotin⟩
            · intro x hx
              rw [List.mem_append] at hx
              rcases hx with hx | hx
              · exact hinv.2.2 x hx
              · rw [List.mem_singleton] at hx; exact hx ▸ ha
          obtain ⟨hinv', t, ht, hts⟩ := ih hsub' _ _ hinv2 seen' acc' h
          exact ⟨hinv', a :: t, by rw [ht, List.append_assoc]; rfl, hts.cons₂ a⟩

lemma run_mem (age gender : String) (asanas : List Asana)
    (hN : (asanas.map Asana.oid).Nodup) :
    ∀ cs : List Asana, (∀ a ∈ cs, a ∈ asanas) →
    ∀ (seen : List Nat) (acc : List Asana), InvS asanas (seen, acc) →
    ∀ (seen' : List Nat) (acc' : List Asana),
      cs.foldl (stepA age gender) (Except.ok (seen, acc)) = Except.ok (seen', acc') →
      ∀ p, p ∈ acc' ↔ p ∈ acc ∨ (p ∈ cs ∧ passesFilter p age gender = Except.ok true) := by
  have hinj : ∀ x ∈ asanas, ∀ y ∈ asanas, x.oid = y.oid → x = y := by
    intro x hx y hy hxy
    exact List.inj_on_of_nodup_map hN hx hy hxy
  intro cs
  induction cs with
  | nil =>
    intro _ seen acc _ seen' acc' h p
    rw [List.foldl_nil] at h
    simp only [Except.ok.injEq, Prod.mk.injEq] at h
    obtain ⟨rfl, rfl⟩ := h
    simp
  | cons a cs ih =>
    intro hsub seen acc hinv seen' acc' h p
    rw [List.foldl_cons] at h
    have hsub' : ∀ x ∈ cs, x ∈ asanas := fun x hx => hsub x (List.mem_cons_of_mem a hx)
    have ha : a ∈ asanas := hsub a (List.mem_cons_self a cs)
    cases hpf : passesFilter a age gender with
    | error e =>
      rw [stepA_ok_err age gender seen acc a e hpf, foldl_stepA_error] at h
      exact absurd h (by intro hh; exact Except.noConfusion hh)
    | ok pass =>
      cases pass with
      | false =>
        rw [stepA_ok_false age gender seen acc a hpf] at h
        rw [ih hsub' seen acc hinv seen' acc' h p]
        constructor
        · rintro (hp | ⟨hp1, hp2⟩)
          · exact Or.inl hp
          · exact Or.inr ⟨List.mem_cons_of_mem a hp1, hp2⟩
        · rintro (hp | ⟨hp1, hp2⟩)
          · exact Or.inl hp
          · rcases List.mem_cons.mp hp1 with rfl | hp1
            · rw [hpf] at hp2; exact absurd (Except.ok.inj hp2) (by simp)
            · exact Or.inr ⟨hp1, hp2⟩
      | true =>
        by_cases hseen : a.oid ∈ seen
        · rw [stepA_ok_seen age gender seen acc a hpf hseen] at h
          have hacc : a ∈ acc := by
            have := (hinv.1 a.oid).mp hseen
            rw [List.mem_map] at this
            obtain ⟨q, hq, hqoid⟩ := this
            have : q = a := hinj q (hinv.2.2 q hq) a ha hqoid
            exact this ▸ hq
          rw [ih hsub' seen acc hinv seen' acc' h p]
          constructor
          · rintro (hp | ⟨hp1, hp2⟩)
            · exact Or.inl hp
            · exact Or.inr ⟨List.mem_cons_of_mem a hp1, hp2⟩
          · rintro (hp | ⟨hp1, hp2⟩)
            · exact Or.inl hp
            · rcases List.mem_cons.mp hp1 with rfl | hp1
              · exact Or.inl hacc
              · exact Or.inr ⟨hp1, hp2⟩
        · rw [stepA_ok_new age gender seen acc a hpf hseen] at h
          have hnotin : a.oid ∉ acc.map Asana.oid := fun hmem => hseen ((hinv.1 a.oid).mpr hmem)
          have hinv2 : InvS asanas (a.oid :: seen, acc ++ [a]) := by
            refine ⟨?_, ?_, ?_⟩
            · intro x
              rw [List.mem_cons, List.map_append, List.mem_append]
              rw [hinv.1 x]
              simp [or_comm]
            · rw [List.map_append]
              rw [List.nodup_append]
              exact ⟨hinv.2.1, List.nodup_singleton _, by simpa using hnotin⟩
            · intro x hx
              rw [List.mem_append] at hx
              rcases hx with hx | hx
              · exact hinv.2.2 x hx
              · rw [List.mem_singleton] at hx; exact hx ▸ ha
          rw [ih hsub' _ _ hinv2 seen' acc' h p]
          rw [List.mem_append, List.mem_singleton]
          constructor
          · rintro ((hp | rfl) | ⟨hp1, hp2⟩)
            · exact Or.inl hp
            · exact Or.inr ⟨List.mem_cons_self _ _, hpf⟩
            · exact Or.inr ⟨List.mem_cons_of_mem a hp1, hp2⟩
          · rintro (hp | ⟨hp1, hp2⟩)
            · exact Or.inl (Or.inl hp)
            · rcases List.mem_cons.mp hp1 with rfl | hp1
              · exact Or.inl (Or.inr rfl)
              · exact Or.inr ⟨hp1, hp2⟩

lemma genderTest_ok_true_iff (a : Asana) (g : String) :
    genderTest a g = Except.ok true ↔
      (pyLower (a.gender.getD "all") = g ∨ ∃ s, a.gender = some s ∧ pyLower s = "all") := by
  unfold genderTest
  by_cases h : pyLower (a.gender.getD "all") = g
  · rw [if_pos h]
    simp [h]
  · rw [if_neg h]
    cases hg : a.gender with
    | none =>
      rw [hg] at h
      simp only [Option.getD_none] at h
      simp [hg, h]
    | some s =>
      rw [hg] at h
      simp only [Option.getD_some] at h
      simp [hg, h]

lemma passesFilter_ok_true_iff (a : Asana) (age gender : String) (ua : Int)
    (h : userAgeInt age = Except.ok ua) :
    passesFilter a age gender = Except.ok true ↔
      (poseAgeInt a ≤ ua ∧ genderTest a gender = Except.ok true) := by
  unfold passesFilter
  rw [h]
  by_cases hle : poseAgeInt a ≤ ua
  · simp [hle]
  · simp [hle]

lemma passesFilter_valueError (a : Asana) (age gender : String)
    (h : pyInt? age = none) :
    passesFilter a age gender = Except.error PyErr.valueError := by
  unfold passesFilter userAgeInt
  rw [h]

lemma filterBenefits_eq (asanas : List Asana) (matching : List String) (age gender : String) :
    filterBenefits asanas matching age gender =
      ((matching.flatMap (asana_map asanas)).foldl (stepA age gender)
        (Except.ok ([], []))).map Prod.snd := by
  unfold filterBenefits
  rw [foldl_nested_eq_flat]

lemma filterBenefits_ok (asanas : List Asana) (matching : List String) (age gender : String)
    (l : List Asana) (h : filterBenefits asanas matching age gender = Except.ok l) :
    ∃ seen', (matching.flatMap (asana_map asanas)).foldl (stepA age gender)
      (Except.ok ([], [])) = Except.ok (seen', l) := by
  rw [filterBenefits_eq] at h
  cases hf : (matching.flatMap (asana_map asanas)).foldl (stepA age gender)
      (Except.ok ([], [])) with
  | error e =>
    rw [hf] at h
    exact absurd h (by intro hh; exact Except.noConfusion hh)
  | ok st =>
    rw [hf] at h
    cases st with
    | mk seen acc =>
      have : acc = l := Except.ok.inj h
      exact ⟨seen, by rw [this]⟩

lemma flatMap_asana_map_subset (asanas : List Asana) (matching : List String) :
    ∀ a ∈ matching.flatMap (asana_map asanas), a ∈ asanas := by
  intro a ha
  rw [List.mem_flatMap] at ha
  obtain ⟨b, _, hb⟩ := ha
  exact ((mem_asana_map _ _ _).mp hb).1

/-- Membership characterization of a successful `recommend_asanas` run: a
pose is in the result exactly when it occurs in some matched benefit's
reverse-index entry and the demographic condition evaluates to `True`. -/
lemma recommend_ok_mem_iff (enc : String → List ℚ) (asanas : List Asana)
    (q age gender : String) (l : List Asana)
    (hids : (asanas.map Asana.oid).Nodup)
    (hok : recommend_asanas enc asanas q age gender = Except.ok l) (p : Asana) :
    p ∈ l ↔
      ((∃ b ∈ find_all_matching_benefits enc asanas q (mkRat 6 10), p ∈ asana_map asanas b) ∧
        passesFilter p age gender = Except.ok true) := by
  unfold recommend_asanas at hok
  obtain ⟨seen', hfold⟩ := filterBenefits_ok _ _ _ _ _ hok
  have hmem := run_mem age gender asanas hids _
    (flatMap_asana_map_subset asanas _) [] [] (invS_nil asanas) _ _ hfold p
  rw [hmem, List.mem_flatMap]
  simp

-- Lemmas about the benefit matcher pipeline.

lemma getD_append_length (x : String) (xs : List String) :
    ∀ pre : List String, (pre ++ x :: xs).getD pre.length "" = x := by
  intro pre
  induction pre with
  | nil => rfl
  | cons a pre ih => simpa using ih

lemma pipeline_getD (qv : List ℚ) (enc : String → List ℚ) (thr : ℚ) :
    ∀ (rest pre : List String),
      (((List.enumFrom pre.length (rest.map enc)).map (fun p => (sqL2 qv p.2, p.1))).filter
          (fun p => decide (p.1 < thr))).map (fun p => (pre ++ rest).getD p.2 "") =
        rest.filter (fun lb => decide (sqL2 qv (enc lb) < thr)) := by
  intro rest
  induction rest with
  | nil => intro pre; rfl
  | cons x xs ih =>
    intro pre
    rw [List.map_cons, List.enumFrom_cons, List.map_cons]
    have hrw : pre ++ x :: xs = (pre ++ [x]) ++ xs := by simp
    have hlen : pre.length + 1 = (pre ++ [x]).length := by simp
    by_cases hx : sqL2 qv (enc x) < thr
    · rw [List.filter_cons_of_pos (by simpa using hx), List.map_cons,
        getD_append_length x xs pre, List.filter_cons_of_pos (by simpa using hx)]
      rw [hrw, hlen, ih (pre ++ [x])]
    · rw [List.filter_cons_of_neg (by simpa using hx), List.filter_cons_of_neg (by simpa using hx)]
      rw [hrw, hlen, ih (pre ++ [x])]

lemma searchAll_length_le (db : List (List ℚ)) (q : List ℚ) (k : Nat) :
    (searchAll db q k).length ≤ k := by
  unfold searchAll
  exact List.length_take_le _ _

lemma searchAll_full_perm (db : List (List ℚ)) (q : List ℚ) :
    (searchAll db q db.length).Perm ((db.enum).map (fun p => (sqL2 q p.2, p.1))) := by
  unfold searchAll
  have hlen : (((db.enum).map (fun p => (sqL2 q p.2, p.1))).insertionSort
      (fun a b => a.1 ≤ b.1)).length ≤ db.length := by
    rw [List.length_insertionSort, List.length_map, List.enum_length]
  rw [List.take_of_length_le hlen]
  exact List.perm_insertionSort _ _

/-- The matcher's result, up to order, is the vocabulary filtered by the
strict distance threshold. -/
lemma find_all_perm_filter (enc : String → List ℚ) (asanas : List Asana)
    (q : String) (thr : ℚ) :
    (find_all_matching_benefits enc asanas q thr).Perm
      ((health_benefits asanas).filter
        (fun lb => decide (sqL2 (enc q) (enc lb) < thr))) := by
  unfold find_all_matching_benefits
  have hperm := searchAll_full_perm ((health_benefits asanas).map enc) (enc q)
  rw [List.length_map] at hperm
  have h2 := (hperm.filter (fun p => decide (p.1 < thr))).map
    (fun p => (health_benefits asanas).getD p.2 "")
  refine h2.trans ?_
  have henum : ((health_benefits asanas).map enc).enum =
      List.enumFrom ([] : List String).length ((health_benefits asanas).map enc) := rfl
  rw [henum]
  have hpl := pipeline_getD (enc q) enc thr (health_benefits asanas) []
  simp only [List.nil_append] at hpl
  rw [hpl]

-- Lemmas about the lazy model/index initialization.

lemma load_model_model (loader : Unit → (String → List ℚ)) (st : RecommenderState) :
    (load_model loader st).model = some (st.model.getD (loader ())) := by
  cases h : st.model with
  | some m => simp [load_model, h]
  | none => simp [load_model, h]

lemma build_faiss_index_of_some (loader : Unit → (String → List ℚ)) (vocab : List String)
    (st : RecommenderState) (i : List (List ℚ)) (h : st.index = some i) :
    build_faiss_index loader vocab st = st := by
  simp [build_faiss_index, h]

lemma build_faiss_index_of_none (loader : Unit → (String → List ℚ)) (vocab : List String)
    (st : RecommenderState) (h : st.index = none) :
    build_faiss_index loader vocab st =
      { load_model loader st with index := some (vocab.map (st.model.getD (loader ()))) } := by
  simp [build_faiss_index, h, load_model_model]

example : pyLower "Female" = "female" := by decide
example : pyInt? "All" = none := by decide
example : pyInt? "30" = some 30 := by decide
example : pyInt? "-5" = some (-5) := by decide
example : pyInt? "abc" = none := by decide
example : find_all_matching_benefits cencAll [poseF] "q" (mkRat 6 10) = ["b"] := by decide
example : find_all_matching_benefits cencFar [poseF] "q" (mkRat 6 10) = [] := by decide
example : recommend_asanas cencAll [poseF] "q" "30" "female" = Except.ok [poseF] := by decide
example : recommend_asanas cencAll [poseF] "q" "30" "Female" = Except.ok [] := by decide
example : recommend_asanas cencAll [poseNoG] "q" "30" "female" = Except.error PyErr.keyError := by decide
example : recommend_asanas cencAll [poseF] "q" "abc" "female" = Except.error PyErr.valueError := by decide
example : recommend_asanas cencFar [poseF] "q" "abc" "female" = Except.ok [] := by decide
example : recommend_asanas cencAll [poseAll, poseAll2] "q" "30" "Female" = Except.ok [poseAll, poseAll2] := by decide

/-- A loader standing for the Hugging Face model fetch, used by witnesses. -/
def cloader : Unit → (String → List ℚ) := fun _ => cencAll

/-- A state whose index is already built. -/
def stWithIndex : RecommenderState := { model := none, index := some [[1]] }

/-- A state whose model is already loaded. -/
def stWithModel : RecommenderState := { model := some cencAll, index := none }

-- Claim theorems.

/-- C1 is FALSE as stated: the code lowercases only the pose's gender, so
the comparison is not case-insensitive on the user's side.  Concretely, a
pose with gender "Female" satisfies the claimed inclusion condition for
the request gender "Female" (its minimum age 0 is ≤ 30 and the two gender
strings agree case-insensitively), and its benefit "b" is matched, yet
`recommend_asanas` returns the empty list for request "Female" while it
returns the pose for request "female". -/
theorem gender_case_counterexample :
    poseAgeInt poseF ≤ 30 ∧
    pyLower (poseF.gender.getD "all") = pyLower "Female" ∧
    "b" ∈ find_all_matching_benefits cencAll [poseF] "q" (mkRat 6 10) ∧
    poseF ∈ asana_map [poseF] "b" ∧
    recommend_asanas cencAll [poseF] "q" "30" "Female" = Except.ok [] ∧
    recommend_asanas cencAll [poseF] "q" "30" "female" = Except.ok [poseF] :=
  ⟨by decide, by decide, by decide, by decide, by decide, by decide⟩

/-- C1 (amended): when the catalog ids are distinct and the user age
parses, a pose is in the result of `recommend_asanas` iff it lies in the
reverse-index entry of some matched benefit, its parsed minimum age is at
most the user's age, and its gender — lowercased, defaulting to "all" —
equals the requested gender string EXACTLY, or its gender field is present
and lowercases to "all".  The case-insensitivity is on the pose side
only. -/
theorem recommend_inclusion_characterization
    (enc : String → List ℚ) (asanas : List Asana) (q age gender : String)
    (ua : Int) (l : List Asana) (p : Asana)
    (hids : (asanas.map Asana.oid).Nodup)
    (hage : userAgeInt age = Except.ok ua)
    (hok : recommend_asanas enc asanas q age gender = Except.ok l) :
    p ∈ l ↔
      ((∃ b ∈ find_all_matching_benefits enc asanas q (mkRat 6 10), p ∈ asana_map asanas b) ∧
        poseAgeInt p ≤ ua ∧
        (pyLower (p.gender.getD "all") = gender ∨
          ∃ s, p.gender = some s ∧ pyLower s = "all")) := by
  rw [recommend_ok_mem_iff enc asanas q age gender l hids hok p,
    passesFilter_ok_true_iff p age gender ua hage, genderTest_ok_true_iff]

/-- Witness for the amended C1 theorem at a concrete input. -/
theorem recommend_inclusion_characterization_witness :
    poseF ∈ [poseF] ↔
      ((∃ b ∈ find_all_matching_benefits cencAll [poseF] "q" (mkRat 6 10),
          poseF ∈ asana_map [poseF] b) ∧
        poseAgeInt poseF ≤ 30 ∧
        (pyLower (poseF.gender.getD "all") = "female" ∨
          ∃ s, poseF.gender = some s ∧ pyLower s = "all")) :=
  recommend_inclusion_characterization cencAll [poseF] "q" "30" "female" 30 [poseF] poseF
    (by decide) (by decide) (by decide)

/-- C2: a successful `recommend_asanas` run never returns two poses with
the same identifier: the returned ids are pairwise distinct, for every
encoder, catalog, query, age and gender. -/
theorem recommend_no_duplicate_ids
    (enc : String → List ℚ) (asanas : List Asana) (q age gender : String) (l : List Asana)
    (hok : recommend_asanas enc asanas q age gender = Except.ok l) :
    (l.map Asana.oid).Nodup := by
  unfold recommend_asanas at hok
  obtain ⟨seen', hfold⟩ := filterBenefits_ok _ _ _ _ _ hok
  exact (run_inv age gender asanas _ (flatMap_asana_map_subset asanas _) [] []
    (invS_nil asanas) _ _ hfold).1.2.1

/-- Witness for C2 at a concrete input. -/
theorem recommend_no_duplicate_ids_witness :
    (([poseF] : List Asana).map Asana.oid).Nodup :=
  recommend_no_duplicate_ids cencAll [poseF] "q" "30" "female" [poseF] (by decide)

/-- C3: `find_all_matching_benefits` queries the index with k equal to the
vocabulary size and returns exactly (up to the index's distance-sorted
order) the vocabulary labels whose squared-L2 distance to the query
embedding is strictly below the threshold; its length never exceeds the
vocabulary size; and it is empty precisely when no label passes, an
ordinary empty-list value rather than a failure. -/
theorem matcher_threshold_filter
    (enc : String → List ℚ) (asanas : List Asana) (q : String) (thr : ℚ) :
    (find_all_matching_benefits enc asanas q thr).Perm
      ((health_benefits asanas).filter (fun lb => decide (sqL2 (enc q) (enc lb) < thr))) ∧
    (find_all_matching_benefits enc asanas q thr).length ≤ (health_benefits asanas).length ∧
    (find_all_matching_benefits enc asanas q thr = [] ↔
      (health_benefits asanas).filter (fun lb => decide (sqL2 (enc q) (enc lb) < thr)) = []) := by
  have hperm := find_all_perm_filter enc asanas q thr
  refine ⟨hperm, ?_, ?_⟩
  · rw [hperm.length_eq]
    exact List.length_filter_le _ _
  · rw [← List.length_eq_zero, ← List.length_eq_zero, hperm.length_eq]

/-- C4: a pose whose age field fails to parse as an integer gets minimum
age `0`, so for every non-negative parsed user age the age condition holds
and the filter outcome for that pose is exactly the gender test — such a
pose is never excluded on age grounds. -/
theorem nonnumeric_pose_age_defaults
    (a : Asana) (s : String) (age gender : String) (ua : Int)
    (hs : a.age = some s) (hp : pyInt? s = none)
    (hage : userAgeInt age = Except.ok ua) (hua : 0 ≤ ua) :
    poseAgeInt a = 0 ∧ passesFilter a age gender = genderTest a gender := by
  have h0 : poseAgeInt a = 0 := by
    simp [poseAgeInt, hs, hp]
  refine ⟨h0, ?_⟩
  simp [passesFilter, hage, h0, hua]

/-- Witness for C4: the pose with age threshold "All". -/
theorem nonnumeric_pose_age_defaults_witness :
    poseAgeInt poseAgeAll = 0 ∧
      passesFilter poseAgeAll "30" "female" = genderTest poseAgeAll "female" :=
  nonnumeric_pose_age_defaults poseAgeAll "All" "30" "female" 30 rfl (by decide) (by decide)
    (by decide)

/-- C5 is FALSE as stated: with an unparseable user age the request does
not fail "for every query and catalog" — when no pose is ever considered
(here: no benefit matches), `int(age)` is never evaluated and the call
returns the empty list. -/
theorem user_age_error_counterexample :
    pyInt? "abc" = none ∧
      recommend_asanas cencFar [poseF] "q" "abc" "female" = Except.ok [] :=
  ⟨by decide, by decide⟩

/-- C5 (amended): when the user age does not parse and at least one pose
is examined (some matched benefit has a nonempty reverse-index entry),
`recommend_asanas` raises `ValueError` instead of defaulting the age. -/
theorem user_age_error_raises
    (enc : String → List ℚ) (asanas : List Asana) (q age gender : String) (b : String)
    (hage : pyInt? age = none)
    (hb : b ∈ find_all_matching_benefits enc asanas q (mkRat 6 10))
    (hne : asana_map asanas b ≠ []) :
    recommend_asanas enc asanas q age gender = Except.error PyErr.valueError := by
  unfold recommend_asanas
  rw [filterBenefits_eq]
  obtain ⟨a, ha⟩ := List.exists_mem_of_ne_nil _ hne
  have hmem : a ∈ (find_all_matching_benefits enc asanas q (mkRat 6 10)).flatMap
      (asana_map asanas) := List.mem_flatMap.mpr ⟨b, hb, ha⟩
  obtain ⟨x, cs, hcs⟩ := List.exists_cons_of_ne_nil (List.ne_nil_of_mem hmem)
  rw [hcs, List.foldl_cons,
    stepA_ok_err _ _ _ _ _ _ (passesFilter_valueError x age gender hage),
    foldl_stepA_error]
  rfl

/-- Witness for the amended C5 theorem at a concrete input. -/
theorem user_age_error_raises_witness :
    recommend_asanas cencAll [poseF] "q" "abc" "female" = Except.error PyErr.valueError :=
  user_age_error_raises cencAll [poseF] "q" "abc" "female" "b" (by decide) (by decide)
    (by decide)

/-- C6: a pose whose gender field is present and lowercases to "all",
whose age threshold is at most the parsed user age, and which lies in the
reverse-index entry of a matched benefit, appears in every successful
recommendation result — whatever the requested gender string is. -/
theorem gender_all_pose_always_included
    (enc : String → List ℚ) (asanas : List Asana) (q age gender : String)
    (ua : Int) (l : List Asana) (b : String) (p : Asana) (s : String)
    (hids : (asanas.map Asana.oid).Nodup)
    (hage : userAgeInt age = Except.ok ua)
    (hok : recommend_asanas enc asanas q age gender = Except.ok l)
    (hb : b ∈ find_all_matching_benefits enc asanas q (mkRat 6 10))
    (hp : p ∈ asana_map asanas b)
    (hg : p.gender = some s) (hall : pyLower s = "all")
    (hple : poseAgeInt p ≤ ua) :
    p ∈ l := by
  rw [recommend_ok_mem_iff enc asanas q age gender l hids hok p]
  refine ⟨⟨b, hb, hp⟩, ?_⟩
  rw [passesFilter_ok_true_iff p age gender ua hage]
  exact ⟨hple, (genderTest_ok_true_iff p gender).mpr (Or.inr ⟨s, hg, hall⟩)⟩

/-- Witness for C6: the gender-"all" pose is returned even for the
requested gender "Female", which matches no pose gender directly. -/
theorem gender_all_pose_always_included_witness :
    poseAll ∈ [poseAll] :=
  gender_all_pose_always_included cencAll [poseAll] "q" "30" "Female" 30 [poseAll] "b"
    poseAll "all" (by decide) (by decide) (by decide) (by decide) (by decide) rfl (by decide)
    (by decide)

/-- C7: in a successful run whose matched benefits contain `b`, the result
splits as `pre ++ t ++ rest` where `t` is a sublist of `b`'s reverse-index
entry — so poses first admitted while scanning `b` keep that entry's
catalog-load order — every pose of that entry satisfying the demographic
condition is present by the end of `b`'s scan (`pre ++ t`), and the whole
result has pairwise-distinct ids (each pose appears exactly once). -/
theorem shared_benefit_order_preserved
    (enc : String → List ℚ) (asanas : List Asana) (q age gender : String)
    (l : List Asana) (ms1 ms2 : List String) (b : String)
    (hids : (asanas.map Asana.oid).Nodup)
    (hmatch : find_all_matching_benefits enc asanas q (mkRat 6 10) = ms1 ++ b :: ms2)
    (hok : recommend_asanas enc asanas q age gender = Except.ok l) :
    ∃ pre t rest, l = pre ++ t ++ rest ∧ t.Sublist (asana_map asanas b) ∧
      (∀ p ∈ asana_map asanas b, passesFilter p age gender = Except.ok true → p ∈ pre ++ t) ∧
      (l.map Asana.oid).Nodup := by
  unfold recommend_asanas at hok
  obtain ⟨seen', hfold⟩ := filterBenefits_ok _ _ _ _ _ hok
  rw [hmatch, List.flatMap_append, List.flatMap_cons, List.foldl_append, List.foldl_append]
    at hfold
  have hsubB : ∀ x ∈ asana_map asanas b, x ∈ asanas :=
    fun x hx => ((mem_asana_map asanas b x).mp hx).1
  cases h1 : (ms1.flatMap (asana_map asanas)).foldl (stepA age gender)
      (Except.ok ([], [])) with
  | error e =>
    rw [h1, foldl_stepA_error, foldl_stepA_error] at hfold
    exact absurd hfold (by intro hh; exact Except.noConfusion hh)
  | ok st1 =>
    cases st1 with
    | mk s1 a1 =>
      have hrun1 := run_inv age gender asanas _ (flatMap_asana_map_subset asanas ms1)
        [] [] (invS_nil asanas) s1 a1 h1
      rw [h1] at hfold
      cases h2 : (asana_map asanas b).foldl (stepA age gender) (Except.ok (s1, a1)) with
      | error e =>
        rw [h2, foldl_stepA_error] at hfold
        exact absurd hfold (by intro hh; exact Except.noConfusion hh)
      | ok st2 =>
        cases st2 with
        | mk s2 a2 =>
          have hrun2 := run_inv age gender asanas _ hsubB s1 a1 hrun1.1 s2 a2 h2
          have hmem2 := run_mem age gender asanas hids _ hsubB s1 a1 hrun1.1 s2 a2 h2
          rw [h2] at hfold
          have hrun3 := run_inv age gender asanas _ (flatMap_asana_map_subset asanas ms2)
            s2 a2 hrun2.1 seen' l hfold
          obtain ⟨t, ht, hts⟩ := hrun2.2
          obtain ⟨t3, ht3, _⟩ := hrun3.2
          refine ⟨a1, t, t3, ?_, hts, ?_, hrun3.1.2.1⟩
          · rw [ht3, ht]
          · intro p hp hpass
            rw [← ht]
            exact (hmem2 p).mpr (Or.inr ⟨hp, hpass⟩)

/-- Witness for C7: two poses sharing benefit "b" both appear, once each,
in their reverse-index order. -/
theorem shared_benefit_order_preserved_witness :
    ∃ pre t rest, ([poseAll, poseAll2] : List Asana) = pre ++ t ++ rest ∧
      t.Sublist (asana_map [poseAll, poseAll2] "b") ∧
      (∀ p ∈ asana_map [poseAll, poseAll2] "b",
        passesFilter p "30" "female" = Except.ok true → p ∈ pre ++ t) ∧
      (([poseAll, poseAll2] : List Asana).map Asana.oid).Nodup :=
  shared_benefit_order_preserved cencAll [poseAll, poseAll2] "q" "30" "female"
    [poseAll, poseAll2] [] [] "b" (by decide) (by decide) (by decide)

/-- C8: the benefit vocabulary built at load time has no duplicate labels,
and the union over the vocabulary of the reverse index's benefit-to-pose
lists is, as a set of poses, exactly the catalog poses having at least one
benefit label. -/
theorem reverse_index_union_and_vocab_nodup (asanas : List Asana) :
    (health_benefits asanas).Nodup ∧
      ∀ p, (∃ b ∈ health_benefits asanas, p ∈ asana_map asanas b) ↔
        (p ∈ asanas ∧ p.health_benefits ≠ []) := by
  constructor
  · exact List.nodup_dedup _
  · intro p
    constructor
    · rintro ⟨b, _, hp⟩
      have h := (mem_asana_map asanas b p).mp hp
      exact ⟨h.1, List.ne_nil_of_mem h.2⟩
    · rintro ⟨hp, hne⟩
      obtain ⟨b, hb⟩ := List.exists_mem_of_ne_nil _ hne
      refine ⟨b, ?_, (mem_asana_map asanas b p).mpr ⟨hp, hb⟩⟩
      unfold health_benefits
      rw [List.mem_dedup, List.mem_flatMap]
      exact ⟨p, hp, hb⟩

/-- C9: at construction neither the model nor the index is initialized;
`build_faiss_index` is idempotent (a second call returns the state of the
first unchanged), a state with a built index is returned as is without
rebuilding, and a state with a loaded model is never reloaded by
`load_model`. -/
theorem lazy_build_idempotent :
    initRecommender.model = none ∧ initRecommender.index = none ∧
    (∀ loader vocab st, build_faiss_index loader vocab (build_faiss_index loader vocab st) =
      build_faiss_index loader vocab st) ∧
    (∀ loader vocab st i, st.index = some i → build_faiss_index loader vocab st = st) ∧
    (∀ loader st m, st.model = some m → load_model loader st = st) := by
  refine ⟨rfl, rfl, ?_, ?_, ?_⟩
  · intro loader vocab st
    cases hidx : st.index with
    | some i =>
      rw [build_faiss_index_of_some loader vocab st i hidx,
        build_faiss_index_of_some loader vocab st i hidx]
    | none =>
      rw [build_faiss_index_of_none loader vocab st hidx]
      exact build_faiss_index_of_some loader vocab _ _ rfl
  · intro loader vocab st i h
    exact build_faiss_index_of_some loader vocab st i h
  · intro loader st m h
    simp [load_model, h]

/-- Witness for C9: a built index is returned unchanged; a loaded model is
not reloaded. -/
theorem lazy_build_idempotent_witness :
    build_faiss_index cloader ["b"] stWithIndex = stWithIndex ∧
      load_model cloader stWithModel = stWithModel :=
  ⟨lazy_build_idempotent.2.2.2.1 cloader ["b"] stWithIndex [[1]] rfl,
    lazy_build_idempotent.2.2.2.2 cloader stWithModel cencAll rfl⟩

/-- C10: when a pose record has no gender field and the requested gender
is not the exact string "all", the gender test raises `KeyError` (the
"all" default applies only to the first disjunct), and consequently
`recommend_asanas` is not total: on a concrete catalog containing such a
pose the call returns `KeyError` instead of a result. -/
theorem missing_gender_field_keyerror :
    (∀ (a : Asana) (g : String), a.gender = none → g ≠ "all" →
        genderTest a g = Except.error PyErr.keyError) ∧
      recommend_asanas cencAll [poseNoG] "q" "30" "female" = Except.error PyErr.keyError := by
  constructor
  · intro a g hg hne
    unfold genderTest
    rw [hg]
    simp only [Option.getD_none]
    rw [show pyLower "all" = "all" from by decide]
    rw [if_neg (fun hc => hne hc.symm)]
  · decide

/-- Witness for C10 at a concrete pose. -/
theorem missing_gender_field_keyerror_witness :
    genderTest poseNoG "female" = Except.error PyErr.keyError :=
  missing_gender_field_keyerror.1 poseNoG "female" rfl (by decide)

end SmartYoga
